import Mathlib

/-!
# Verification of the doc-rag retrieval/validation core

Shallow embedding of the repository's core modules:
`src/core/intent.py`, `src/core/retriever.py`, `src/core/validator.py`,
`src/utils/cache.py`, and the constants of `src/config.py`.

Modelling conventions:
* Python `float` values are modelled as `ℚ` (the numeric literals of the
  source are exactly representable and no claim depends on IEEE rounding).
* Python strings are modelled as `String`; character classes of `re`
  (`\w`, `\s`, …) use their ASCII meaning, which covers every string the
  source ever builds from its own constants.
* External collaborators (the vector store, the BM25 index, the flashrank
  reranker, `hashlib`) are modelled as function parameters bundled in a
  `Collab` structure; the md5/sha256 digests are abstract `String → String`
  functions.
* Python `set` iteration order is unspecified; wherever the source iterates
  a set we model the set as a first-insertion-ordered duplicate-free list.
  No claim below depends on that order.
* The `ThreadPoolExecutor` fan-out of `search_books_parallel` completes in
  a nondeterministic order; we model one schedule (submission order).
  No claim below depends on the schedule.
-/

namespace DocRag

/-! ## Python string primitives -/

/-- ASCII model of the regex class `\w` (`[A-Za-z0-9_]`). -/
def isWordChar (c : Char) : Bool :=
  c.isAlphanum || c = '_'

/-- Python whitespace (`str.split`, `str.strip`, regex `\s`), ASCII part. -/
def isPySpace (c : Char) : Bool :=
  c = ' ' || c = '\t' || c = '\n' || c = '\r' || c = '\x0b' || c = '\x0c'

/-- `str.strip()` on a list of characters. -/
def pyStripL (cs : List Char) : List Char :=
  ((cs.dropWhile isPySpace).reverse.dropWhile isPySpace).reverse

/-- `str.strip()`. -/
def pyStrip (s : String) : String :=
  ⟨pyStripL s.toList⟩

/-- `str.split()` (split on whitespace runs, no empty fields):
accumulator carries the current field reversed. -/
def pySplitAux : List Char → List Char → List (List Char)
  | [], acc => if acc.isEmpty then [] else [acc.reverse]
  | c :: cs, acc =>
    if isPySpace c then
      if acc.isEmpty then pySplitAux cs [] else acc.reverse :: pySplitAux cs []
    else pySplitAux cs (c :: acc)

def pySplitL (cs : List Char) : List (List Char) :=
  pySplitAux cs []

/-- `str.split()` returning strings. -/
def pySplit (s : String) : List String :=
  (pySplitL s.toList).map fun cs => ⟨cs⟩

/-! The following small wrappers reimplement the `String` library functions
used by the embedding directly on the character list, so that every
definition in this file evaluates by plain kernel reduction. -/

/-- `str.lower()` (ASCII). -/
def pyLower (s : String) : String :=
  ⟨s.toList.map Char.toLower⟩

/-- `str.startswith(pre)`. -/
def strStartsWith (s pre : String) : Bool :=
  pre.toList.isPrefixOf s.toList

/-- `s[:n]` (code points). -/
def strTake (s : String) (n : Nat) : String :=
  ⟨s.toList.take n⟩

/-- `s[n:]` (code points). -/
def strDrop (s : String) (n : Nat) : String :=
  ⟨s.toList.drop n⟩

/-- `len(s)` (code points). -/
def strLen (s : String) : Nat :=
  s.toList.length

/-- `sep.join(l)`. -/
def strJoin (sep : String) : List String → String
  | [] => ""
  | [x] => x
  | x :: y :: t => x ++ sep ++ strJoin sep (y :: t)

/-- `s.split(sep)` for a non-empty separator, scanning left to right;
`fuel` only bounds the recursion (any value ≥ the text length is exact). -/
def splitOnAux (sep : List Char) : Nat → List Char → List Char → List String
  | _, [], acc => [⟨acc.reverse⟩]
  | 0, cs, acc => [⟨acc.reverse ++ cs⟩]
  | fuel + 1, c :: cs, acc =>
    if sep.isPrefixOf (c :: cs) then
      String.mk acc.reverse :: splitOnAux sep fuel (cs.drop (sep.length - 1)) []
    else splitOnAux sep fuel cs (c :: acc)

def splitOnStr (sep s : String) : List String :=
  splitOnAux sep.toList (strLen s + 1) s.toList []

/-- Case-insensitive character equality (ASCII). -/
def chEqCI (a b : Char) : Bool :=
  a.toLower = b.toLower

/-- Is `pat` a prefix of `cs`, case-insensitively? -/
def isPrefixCI : List Char → List Char → Bool
  | [], _ => true
  | _ :: _, [] => false
  | p :: ps, c :: cs => chEqCI p c && isPrefixCI ps cs

/-- Is `pat` a prefix of `cs`, case-sensitively? -/
def isPrefixCS : List Char → List Char → Bool
  | [], _ => true
  | _ :: _, [] => false
  | p :: ps, c :: cs => (p = c : Bool) && isPrefixCS ps cs

/-- Plain substring test (Python `pat in s`), case-sensitive. -/
def containsSubL (pat : List Char) : List Char → Bool
  | [] => isPrefixCS pat []
  | c :: cs => isPrefixCS pat (c :: cs) || containsSubL pat cs

/-- Plain substring test on strings. -/
def containsSub (s pat : String) : Bool :=
  containsSubL pat.toList s.toList

/-! ## A small search engine for the source's regular expressions

Every regex the source searches with is (after the word-run analysis
documented at each use site) a sequence of literal alternatives separated
by `.*` gaps, with optional `\b` boundary assertions at the edges of each
literal and optional `^` / `$` anchors.  `Part` is one literal step,
`Pattern` a whole search pattern.  `.*` never crosses a newline
(`re.DOTALL` is off); `$` also matches just before a final newline. -/

structure Part where
  alts : List String
  bStart : Bool
  bEnd : Bool
deriving Repr, DecidableEq

structure Pattern where
  parts : List Part
  anchorStart : Bool := false
  anchorEnd : Bool := false
deriving Repr, DecidableEq

/-- A `\b` assertion between a previous character and a next character:
true iff exactly one side is a word character (absent side = non-word). -/
def boundaryOK (prev next : Option Char) : Bool :=
  let w : Option Char → Bool := fun o => match o with
    | none => false
    | some c => isWordChar c
  w prev != w next

/-- Try to match one `Part` at the head of `cs` (given the char just
before `cs`).  Returns the number of characters consumed. -/
def partAt (p : Part) (prev : Option Char) (cs : List Char) : Option Nat :=
  p.alts.findSome? fun a =>
    let ac := a.toList
    if isPrefixCI ac cs then
      let fits :=
        (!p.bStart || boundaryOK prev ac.head?) &&
        (!p.bEnd || boundaryOK (ac.getLast?) ((cs.drop ac.length).head?))
      if fits then some ac.length else none
    else none

/-- Match a list of parts starting exactly at `cs`; between consecutive
parts a `.*` gap (no newline) is allowed.  `endOK` receives the suffix
after the final part (used for the `$` anchor).  `fuel` only bounds the
recursion: every step consumes a character or a part, so any fuel
≥ `cs.length + ps.length` is exact. -/
def seqGap (endOK : List Char → Bool) :
    Nat → List Part → Option Char → List Char → Bool
  | _, [], _, cs => endOK cs
  | 0, _ :: _, _, _ => false
  | fuel + 1, p :: rest, prev, cs =>
    (match partAt p prev cs with
     | some n =>
       seqGap endOK fuel rest ((cs.take n).getLast?.orElse fun _ => prev) (cs.drop n)
     | none => false) ||
    (match cs with
     | [] => false
     | c :: cs' => c ≠ '\n' && seqGap endOK fuel (p :: rest) (some c) cs')

/-- Match the parts with the FIRST part starting exactly at the current
position (`re.search` tries each start position in turn). -/
def seqAtPos (endOK : List Char → Bool) (ps : List Part)
    (prev : Option Char) (cs : List Char) : Bool :=
  match ps with
  | [] => endOK cs
  | p :: rest =>
    match partAt p prev cs with
    | some n =>
      seqGap endOK (cs.length + ps.length) rest
        ((cs.take n).getLast?.orElse fun _ => prev) (cs.drop n)
    | none => false

/-- Scan every position for a match of the part sequence. -/
def scanFrom (endOK : List Char → Bool) (ps : List Part)
    (prev : Option Char) : List Char → Bool
  | [] => seqAtPos endOK ps prev []
  | c :: cs' => seqAtPos endOK ps prev (c :: cs') || scanFrom endOK ps (some c) cs'

/-- `re.search(pattern, s)` as a Boolean. -/
def patSearch (pat : Pattern) (s : String) : Bool :=
  let endOK : List Char → Bool := fun cs =>
    !pat.anchorEnd || cs.isEmpty || cs = ['\n']
  let cs := s.toList
  if pat.anchorStart then
    seqAtPos endOK pat.parts none cs
  else
    scanFrom endOK pat.parts none cs

/-- Does any pattern in the list match? (`any(p.search(q) for p in ...)`) -/
def anySearch (pats : List Pattern) (s : String) : Bool :=
  pats.any fun p => patSearch p s

/-- Shorthand: a pattern that is a plain case-insensitive substring. -/
def litP (s : String) : Pattern := ⟨[⟨[s], false, false⟩], false, false⟩

/-- Shorthand: `\bphrase\b`. -/
def wordP (s : String) : Pattern := ⟨[⟨[s], true, true⟩], false, false⟩

/-- Shorthand: `^phrase\b`. -/
def startP (s : String) : Pattern := ⟨[⟨[s], false, true⟩], true, false⟩

/-- Shorthand: `a.*b.*c...` (literals joined by `.*`, no boundaries). -/
def seqP (l : List String) : Pattern :=
  ⟨l.map fun s => ⟨[s], false, false⟩, false, false⟩

/-- Shorthand: `a.*b` (no boundaries). -/
def gapP (a b : String) : Pattern := seqP [a, b]

/-! ## Word runs

`re` patterns of the source shaped like `\bX\b` where `X` is built from
`[A-Z]`, `[a-z]`, `\d`, `\w` classes can only match entire maximal runs of
word characters (a match ending or starting inside a run would need a word
boundary between two word characters).  `tokenAux` splits a text into its
maximal word-character runs, each paired with the gap that follows it. -/

def tokenAux : List Char → List Char → List Char → List (List Char × List Char)
  | [], runAcc, gapAcc =>
    if runAcc.isEmpty then [] else [(runAcc.reverse, gapAcc.reverse)]
  | c :: cs, runAcc, gapAcc =>
    if isWordChar c then
      if gapAcc.isEmpty then tokenAux cs (c :: runAcc) gapAcc
      else (runAcc.reverse, gapAcc.reverse) :: tokenAux cs [c] []
    else
      if runAcc.isEmpty then tokenAux cs [] []
      else tokenAux cs runAcc (c :: gapAcc)

/-- Maximal word-character runs of `s`, with the inter-run gaps. -/
def tokens (s : String) : List (List Char × List Char) :=
  tokenAux s.toList [] []

/-- Maximal word-character runs of `s`. -/
def wordRuns (s : String) : List String :=
  (tokens s).map fun t => ⟨t.1⟩

/-- First-insertion-order duplicate removal: the model of a Python `set`
built by accumulation. -/
def dedupKeepFirst (l : List String) : List String :=
  go l []
where
  go : List String → List String → List String
    | [], _ => []
    | x :: xs, seen =>
      if seen.contains x then go xs seen else x :: go xs (x :: seen)

/-- `WORD_PATTERN = \b\w{4,}\b` as a set: the distinct maximal word runs
of length ≥ 4 (the source always applies it to a lowercased text). -/
def wordSet4 (s : String) : List String :=
  dedupKeepFirst ((wordRuns s).filter fun w => strLen w ≥ 4)

/-- Does the run consist only of uppercase ASCII letters? -/
def allUpper (r : List Char) : Bool :=
  r.all fun c => c.isUpper

/-- `[A-Z][a-z]+(?:[A-Z][a-z]+)+` matched against an entire run, as a
state machine: `needLower = true` right after an uppercase letter
(at least one lowercase must follow), `g` counts completed groups. -/
def camelAux : List Char → Bool → Nat → Bool
  | [], needLower, g => !needLower && g ≥ 2
  | c :: cs, true, g => c.isLower && camelAux cs false (g + 1)
  | c :: cs, false, g =>
    if c.isLower then camelAux cs false g
    else c.isUpper && camelAux cs true g

def isCamel : List Char → Bool
  | [] => false
  | c :: cs => c.isUpper && camelAux cs true 0

/-- `TECH_TERM_PATTERN = \b[A-Z]{2,}\b|\b[A-Z][a-z]+(?:[A-Z][a-z]+)+\b`
as a set of matched runs. -/
def techTerms (s : String) : List String :=
  dedupKeepFirst <| (tokens s).filterMap fun t =>
    if (allUpper t.1 && t.1.length ≥ 2) || isCamel t.1 then some ⟨t.1⟩ else none

/-! ## `src/config.py` (environment defaults) -/

def FOLLOWUP_MAX_WORDS : Nat := 5
def TOP_K : Nat := 5
def VALIDATION_THRESHOLD : ℚ := mkRat 55 100
def EVIDENCE_THRESHOLD : ℚ := mkRat 55 100
def MAX_VALIDATION_ISSUES : Nat := 2
def TOPIC_OVERLAP_THRESHOLD : ℚ := mkRat 25 100

/-- `BOOK_METADATA` as `(title, author)` pairs, in dict insertion order. -/
def BOOK_METADATA : List (String × String) :=
  [ ("AI Engineering: Building Applications with Foundation Models", "Chip Huyen"),
    ("Build a Large Language Model From Scratch", "Sebastian Raschka"),
    ("LLM Engineers Handbook", "Paul Iusztin, Maxime Labonne"),
    ("LL Books Collection", "Various"),
    ("Machine Learning Basics", "Unknown") ]

/-! ## `src/core/intent.py` -/

inductive QueryIntent where
  | SPECIFIC_BOOK | CROSS_BOOK | COMPARISON | STRUCTURE
  | FOLLOWUP | LIST_BOOKS | META | GENERAL
deriving Repr, DecidableEq

/-- A conversation turn as the source reads it (`entry.get("user","")`,
`entry.get("assistant","")`, `entry.get("book_context","")`). -/
structure Turn where
  user : String := ""
  assistant : String := ""
  book_context : String := ""
deriving Repr, DecidableEq

/-- `_build_book_patterns`: per book a `\b<first 3 long title words>\b`
pattern, plus `\b<author>\b` patterns for named authors. -/
def BOOK_PATTERNS : List (Pattern × String) :=
  BOOK_METADATA.flatMap fun (title, author) =>
    let title_words := ((pySplit title).filter fun w => strLen w > 3).map pyLower
    let key_words := strJoin " " (title_words.take 3)
    let titlePat := [(wordP key_words, title)]
    let authorPats :=
      if author ≠ "" && author ≠ "Unknown" && author ≠ "Various" then
        ((splitOnStr "," author).map pyStrip).filterMap fun a =>
          if strLen a > 3 then some (wordP (pyLower a), title) else none
      else []
    titlePat ++ authorPats

def STRUCTURE_PATTERNS : List Pattern :=
  [ litP "how many chapter", wordP "chapter", wordP "chapters",
    litP "table of contents", wordP "toc", wordP "outline",
    ⟨[⟨["what"], false, false⟩, ⟨["section", "part"], false, false⟩], false, false⟩,
    ⟨[⟨["list"], false, false⟩, ⟨["section", "part"], false, false⟩], false, false⟩ ]

def CROSS_BOOK_PATTERNS : List Pattern :=
  [ gapP "across" "book", litP "each book", litP "every book",
    litP "both book", litP "different book", litP "from all", litP "in all" ]

def LIST_BOOKS_PATTERNS : List Pattern :=
  [ gapP "list" "book", gapP "all" "book", litP "what book",
    gapP "which book" "have", gapP "show" "book", litP "available book",
    litP "books you have", litP "how many book", litP "more book",
    litP "other book" ]

/-- `META_PATTERNS`; a `s?` directly before `.*` or at the end of a search
pattern is absorbed into the gap, so `problems?`, `topics?`, `questions?`
reduce to their stems. -/
def META_PATTERNS : List Pattern :=
  [ seqP ["what", "can you", "help"], seqP ["what", "you", "do"],
    seqP ["what", "help", "with"], litP "who are you", litP "what are you",
    litP "your capabilities", seqP ["how", "can", "you", "assist"],
    seqP ["what", "problem", "help"], seqP ["what", "you", "know"],
    gapP "what" "topic", seqP ["what", "question", "answer"] ]

/-- `COMPARISON_PATTERNS`; `\bvs\.?\b` is search-equivalent to `\bvs\b`
(whenever the dotted form matches at a position, so does the dotless). -/
def COMPARISON_PATTERNS : List Pattern :=
  [ wordP "compare", wordP "difference", wordP "vs", wordP "versus",
    litP "better than", gapP "which" "better" ]

def FOLLOWUP_INDICATORS : List Pattern :=
  [ startP "then", startP "and", startP "also", startP "what about",
    startP "how about", startP "what are", startP "what is",
    startP "list", startP "show", startP "tell me",
    wordP "the book", wordP "this book", wordP "which book",
    ⟨[⟨["?"], false, false⟩], false, true⟩, startP "why", startP "how",
    startP "is", startP "which",
    ⟨[⟨["more"], true, true⟩, ⟨["detail", "explain", "info"], true, false⟩], false, false⟩,
    startP "explain", startP "elaborate",
    startP "please", ⟨[⟨["please"], false, false⟩], false, true⟩,
    startP "can you", startP "could you",
    wordP "these", wordP "this", wordP "that", wordP "those",
    wordP "source", wordP "reference", wordP "cite" ]

def extract_book_reference (query : String) : String :=
  match BOOK_PATTERNS.find? fun pt => patSearch pt.1 query with
  | some pt => pt.2
  | none => ""

def get_active_book_context (history : List Turn) : String :=
  match (history.reverse.take 5).find? fun t => t.book_context ≠ "" with
  | some t => t.book_context
  | none => ""

def has_structure_intent (query : String) : Bool := anySearch STRUCTURE_PATTERNS query
def has_cross_book_intent (query : String) : Bool := anySearch CROSS_BOOK_PATTERNS query
def has_comparison_intent (query : String) : Bool := anySearch COMPARISON_PATTERNS query
def has_list_books_intent (query : String) : Bool := anySearch LIST_BOOKS_PATTERNS query
def has_meta_intent (query : String) : Bool := anySearch META_PATTERNS query

def is_followup (query : String) (history : List Turn) : Bool :=
  if history.isEmpty then false
  else
    let word_count := (pySplit query).length
    if anySearch FOLLOWUP_INDICATORS query && word_count ≤ 10 then true
    else word_count ≤ FOLLOWUP_MAX_WORDS

def detect_query_intent (query : String) (history : List Turn) :
    QueryIntent × String :=
  let active_book := get_active_book_context history
  if has_meta_intent query then (.META, "")
  else if has_list_books_intent query then (.LIST_BOOKS, "")
  else
    let explicit_book := extract_book_reference query
    if explicit_book ≠ "" then
      if has_structure_intent query then (.STRUCTURE, explicit_book)
      else (.SPECIFIC_BOOK, explicit_book)
    else if has_cross_book_intent query then (.CROSS_BOOK, "")
    else if has_comparison_intent query then (.COMPARISON, "")
    else if active_book ≠ "" && has_structure_intent query then (.STRUCTURE, active_book)
    else if active_book ≠ "" && is_followup query history then (.FOLLOWUP, active_book)
    else if has_structure_intent query then (.STRUCTURE, "")
    else if is_followup query history then (.FOLLOWUP, active_book)
    else (.GENERAL, "")

/-! ## `src/core/validator.py` -/

structure ValidationResult where
  is_valid : Bool
  confidence : ℚ
  issues : List String
deriving Repr, DecidableEq

def SKIP_CLAIM_STARTS : List String :=
  [ "I don\x27t", "I cannot", "Based on", "I recommend", "You can",
    "For learning", "To learn", "The book", "This book", "I\x27m",
    "Here are", "You might", "I suggest", "According to" ]

/-- `re.split(r'(?<=[.!?])\s+', response)`: a whitespace run immediately
preceded by `.`/`!`/`?` is a delimiter.  `inGap` = currently consuming a
delimiter run; `acc` = current segment, reversed. -/
def splitSentAux : Option Char → Bool → List Char → List Char → List (List Char)
  | _, _, [], acc => [acc.reverse]
  | _, true, c :: cs, acc =>
    if isPySpace c then splitSentAux (some c) true cs acc
    else splitSentAux (some c) false cs [c]
  | prev, false, c :: cs, acc =>
    if isPySpace c && (prev = some '.' || prev = some '!' || prev = some '?') then
      acc.reverse :: splitSentAux (some c) true cs []
    else splitSentAux (some c) false cs (c :: acc)

def splitSentences (s : String) : List String :=
  (splitSentAux none false s.toList []).map fun cs => ⟨cs⟩

/-- `re.sub(r'^\d+\.\s', '', s)` applied when `re.match(r'^\d+\.\s', s)`:
strip a leading digit run, a dot and one whitespace character. -/
def stripEnum (s : String) : String :=
  let cs := s.toList
  let ds := cs.takeWhile Char.isDigit
  match cs.drop ds.length with
  | '.' :: w :: rest => if !ds.isEmpty && isPySpace w then ⟨rest⟩ else s
  | _ => s

def extract_claims (response : String) : List String :=
  (splitSentences response).filterMap fun s₀ =>
    let s := pyStrip s₀
    if strLen s < 15 then none
    else if SKIP_CLAIM_STARTS.any (fun pre => strStartsWith s pre) then none
    else
      let s := if strStartsWith s "- " || strStartsWith s "* " || strStartsWith s "â€¢ "
               then strDrop s 2 else s
      let s := stripEnum s
      if strLen s > 15 then some s else none

/-- Size of the intersection of two Python sets modelled as
duplicate-free lists. -/
def interCount (a b : List String) : Nat :=
  (a.filter fun x => b.contains x).length

def find_evidence (claim context : String) (threshold : ℚ) : Bool × ℚ :=
  let claim_words := wordSet4 (pyLower claim)
  let context_words := wordSet4 (pyLower context)
  if claim_words.isEmpty then (true, 1)
  else
    let overlap : ℚ := (interCount claim_words context_words : ℚ) / claim_words.length
    if overlap ≥ threshold then
      let claim_tech := techTerms claim
      let context_tech := techTerms context
      let overlap :=
        if !claim_tech.isEmpty then
          (overlap + (interCount claim_tech context_tech : ℚ) / claim_tech.length) / 2
        else overlap
      (decide (overlap ≥ threshold * (8 / 10)), overlap)
    else
      let best_chunk_score := (splitOnStr "---" context).foldl
        (fun best chunk =>
          if strLen (pyStrip chunk) < 50 then best
          else
            let chunk_words := wordSet4 (pyLower chunk)
            if !claim_words.isEmpty then
              max best ((interCount claim_words chunk_words : ℚ) / claim_words.length)
            else best)
        0
      let final_score := max overlap best_chunk_score
      (decide (final_score ≥ threshold), final_score)

/-! ### Number accuracy -/

def NUMBER_WORDS : List (String × String) :=
  [ ("one", "1"), ("two", "2"), ("three", "3"), ("four", "4"), ("five", "5"),
    ("six", "6"), ("seven", "7"), ("eight", "8"), ("nine", "9"), ("ten", "10"),
    ("eleven", "11"), ("twelve", "12"), ("first", "1"), ("second", "2"),
    ("third", "3") ]

/-- `re.sub(rf'\b{word}\b', digit, text)`: replace every boundary-delimited
occurrence, scanning left to right (`fuel` ≥ text length is exact). -/
def replaceWordAll (w d : List Char) : Nat → Option Char → List Char → List Char
  | _, _, [] => []
  | 0, _, cs => cs
  | fuel + 1, prev, c :: cs =>
    if w.isPrefixOf (c :: cs) && boundaryOK prev w.head? &&
       boundaryOK w.getLast? ((c :: cs).drop w.length).head? then
      d ++ replaceWordAll w d fuel w.getLast? (cs.drop (w.length - 1))
    else
      c :: replaceWordAll w d fuel (some c) cs

def normalize_number (text : String) : String :=
  NUMBER_WORDS.foldl
    (fun acc wd =>
      ⟨replaceWordAll wd.1.toList wd.2.toList (strLen acc + 1) none acc.toList⟩)
    (pyLower text)

def NUMBER_UNITS : List String :=
  ["chapter", "section", "part", "step", "type", "method", "approach"]

/-- Does the run match `(chapter|...)s?\b` exactly (ending at the run's
end)?  Returns the unit as matched, without the optional `s` (= group 2). -/
def unitOf (r : List Char) : Option String :=
  let s : String := ⟨r⟩
  if NUMBER_UNITS.contains (pyLower s) then some s
  else
    let s' : String := ⟨r.dropLast⟩
    if (r.getLast?.any fun c => c.toLower = 's') && NUMBER_UNITS.contains (pyLower s')
    then some s' else none

/-- `NUMBER_PATTERN.findall`: `\b(\d+)\s*(unit)s?\b` can only match a
boundary-initial maximal digit run followed — inside the same word run, or
after an all-whitespace gap in the next word run — by a unit word. -/
def numberWalk : List (List Char × List Char) → List (String × String)
  | [] => []
  | [(run, _)] =>
    let ds := run.takeWhile Char.isDigit
    let tail := run.dropWhile Char.isDigit
    if ds.isEmpty || tail.isEmpty then []
    else
      match unitOf tail with
      | some u => [(⟨ds⟩, u)]
      | none => []
  | (run, gap) :: (run2, g2) :: rest2 =>
    let rest := (run2, g2) :: rest2
    let ds := run.takeWhile Char.isDigit
    let tail := run.dropWhile Char.isDigit
    if ds.isEmpty then numberWalk rest
    else if !tail.isEmpty then
      match unitOf tail with
      | some u => (⟨ds⟩, u) :: numberWalk rest
      | none => numberWalk rest
    else
      if gap.all isPySpace then
        match unitOf run2 with
        | some u => (⟨ds⟩, u) :: numberWalk rest2
        | none => numberWalk rest
      else numberWalk rest

def numberFindall (s : String) : List (String × String) :=
  numberWalk (tokens s)

def check_number_accuracy (response context : String) : List String :=
  let normalized_context := normalize_number context
  let response_numbers := numberFindall response
  let context_numbers := numberFindall normalized_context
  let issues :=
    match response_numbers with
    | [] => []
    | (n, u) :: _ =>
      if context_numbers.isEmpty then [s!"Claimed {n} {u}s without source"] else []
  let issues := issues ++ (response_numbers.take 2).filterMap fun nu =>
    let found := context_numbers.any fun cn =>
      cn.1 = nu.1 && pyLower cn.2 = pyLower nu.2
    if !found && !context_numbers.isEmpty then
      some s!"Number {nu.1} {nu.2}s not verified in context"
    else none
  issues.take 2

/-! ### Proper-name accuracy -/

/-- Is the run exactly `[A-Z][a-z]+`? -/
def isCapWord : List Char → Bool
  | [] => false
  | c :: cs => c.isUpper && !cs.isEmpty && cs.all Char.isLower

/-- `NAME_PATTERN.findall`: `\b([A-Z][a-z]+ [A-Z][a-z]+)\b` matches two
entire capitalized word runs separated by exactly one space,
non-overlapping left to right. -/
def nameWalk : List (List Char × List Char) → List String
  | [] => []
  | [_] => []
  | (r1, g1) :: (r2, g2) :: rest2 =>
    if isCapWord r1 && g1 = [' '] && isCapWord r2 then
      (String.mk r1 ++ " " ++ String.mk r2) :: nameWalk rest2
    else nameWalk ((r2, g2) :: rest2)

def nameFindall (s : String) : List String :=
  nameWalk (tokens s)

def NAME_SKIP : List String :=
  [ "The Book", "This Chapter", "For Example", "In This", "Chapter One",
    "Machine Learning", "Deep Learning", "Neural Network", "Natural Language",
    "Large Language", "New York", "San Francisco", "United States" ]

def check_names_accuracy (response context query : String) : List String :=
  let response_names := dedupKeepFirst (nameFindall response)
  let context_names := nameFindall context
  let query_names := if query ≠ "" then nameFindall query else []
  let issues := response_names.filterMap fun nm =>
    if NAME_SKIP.contains nm || context_names.contains nm ||
       query_names.contains nm then none
    else if (pySplit nm).all fun w => containsSub context w then none
    else some s!"Name \x27{nm}\x27 not found in context"
  issues.take 2

/-! ### False attribution -/

def ATTRIBUTION_ROLES : List String :=
  ["AI engineer", "engineer", "expert", "scientist"]

/-- Match `(?:AI engineer|engineer|expert|scientist)` at the head of `cs`
(first alternative wins). -/
def roleAt (cs : List Char) : Bool :=
  ATTRIBUTION_ROLES.any fun r => isPrefixCI r.toList cs

/-- Match `(?:a |the )?(\w+) (?:roles)` at the head of `cs`, trying the
optional-group alternatives `a ␣`, `the ␣`, empty in regex order; the
`\w+` group is necessarily a maximal word run (it must be followed by a
literal space).  Returns the group. -/
def attrTail (cs : List Char) : Option String :=
  ["a ", "the ", ""].findSome? fun opt =>
    if isPrefixCI opt.toList cs then
      let rest := cs.drop opt.length
      let run := rest.takeWhile isWordChar
      match rest.drop run.length with
      | ' ' :: rest2 => if !run.isEmpty && roleAt rest2 then some ⟨run⟩ else none
      | _ => none
    else none

/-- Leftmost match of
`is (?:a |the )?(\w+) (?:AI engineer|engineer|expert|scientist)`. -/
def respAttrFind : List Char → Option String
  | [] => none
  | c :: cs =>
    (if isPrefixCI "is ".toList (c :: cs) then attrTail ((c :: cs).drop 3)
     else none).orElse fun _ => respAttrFind cs

/-- Leftmost match of `(\w+) (?:AI engineer|engineer|expert|scientist)`. -/
def queryAttrFind : List Char → Option String
  | [] => none
  | c :: cs =>
    let here : Option String :=
      let run := (c :: cs).takeWhile isWordChar
      match (c :: cs).drop run.length with
      | ' ' :: rest2 =>
        if !run.isEmpty && roleAt rest2 then some (String.mk run) else none
      | _ => none
    here.orElse fun _ => queryAttrFind cs

def check_false_attribution (response query : String) (_context : String) :
    List String :=
  match respAttrFind response.toList, queryAttrFind query.toList with
  | some resp_g, some query_g =>
    let resp_nat := pyLower resp_g
    let query_nat := pyLower query_g
    if resp_nat ≠ query_nat && query_nat ≠ "" then
      [s!"Response claims \x27{resp_nat}\x27 but query asks about \x27{query_nat}\x27"]
    else []
  | _, _ => []

/-! ### Fabricated book titles -/

/-- Match `"([^"]{15,})"` at the head of `cs`: content runs to the next
quote (the class `[^"]` cannot cross it).  Returns the group and the
total number of characters consumed (both quotes included). -/
def quotedAt : List Char → Option (String × Nat)
  | '"' :: cs =>
    let content := cs.takeWhile fun c => c ≠ '"'
    match cs.drop content.length with
    | '"' :: _ =>
      if content.length ≥ 15 then some (⟨content⟩, content.length + 2) else none
    | _ => none
  | _ => none

/-- Match `\s+lit` at the head (CI); returns the consumed length. -/
def wsThenLit (lit : List Char) (cs : List Char) : Option Nat :=
  let ws := cs.takeWhile isPySpace
  if ws.isEmpty then none
  else if isPrefixCI lit (cs.drop ws.length) then some (ws.length + lit.length)
  else none

/-- Match `(?:\s+\(O\x27Reilly\)|\s+published|\s+by\s+\w+)` at the head;
alternatives tried in regex order; returns the consumed length. -/
def p1TailAt (cs : List Char) : Option Nat :=
  (wsThenLit "(o\x27reilly)".toList cs).orElse fun _ =>
  (wsThenLit "published".toList cs).orElse fun _ =>
  match wsThenLit "by".toList cs with
  | some n =>
    let rest := cs.drop n
    let ws2 := rest.takeWhile isPySpace
    let run := (rest.drop ws2.length).takeWhile isWordChar
    if !ws2.isEmpty && !run.isEmpty then some (n + ws2.length + run.length) else none
  | none => none

/-- `finditer` for `"([^"]{15,})"(?:\s+\(O\x27Reilly\)|\s+published|\s+by\s+\w+)`;
after a match the scan resumes at the match end (`q + n ≥ 1`, so dropping
`q + n - 1` from the tail is the same position). -/
def p1Scan : Nat → List Char → List String
  | _, [] => []
  | 0, _ => []
  | fuel + 1, c :: cs =>
    match quotedAt (c :: cs) with
    | some (content, q) =>
      match p1TailAt ((c :: cs).drop q) with
      | some n => content :: p1Scan fuel (cs.drop (q + n - 1))
      | none => p1Scan fuel cs
    | none => p1Scan fuel cs

/-- One keyword alternative (in regex order) followed by `\s+"([^"]{15,})"`;
returns the group and the total consumed length. -/
def kwQuoteAt (kws : List (List Char)) (cs : List Char) : Option (String × Nat) :=
  kws.findSome? fun kw =>
    if isPrefixCI kw cs then
      let rest := cs.drop kw.length
      let ws := rest.takeWhile isPySpace
      if ws.isEmpty then none
      else
        match quotedAt (rest.drop ws.length) with
        | some (content, q) => some (content, kw.length + ws.length + q)
        | none => none
    else none

/-- `finditer` for `(?:book|titled?|called|wrote|written)\s+"([^"]{15,})"`
(`titled?` expands, greedy first, to `titled` then `title`). -/
def p2Scan : Nat → List Char → List String
  | _, [] => []
  | 0, _ => []
  | fuel + 1, c :: cs =>
    match kwQuoteAt (["book", "titled", "title", "called", "wrote", "written"].map
        String.toList) (c :: cs) with
    | some (content, k) => content :: p2Scan fuel (cs.drop (k - 1))
    | none => p2Scan fuel cs

/-- Match `(?:her|his)\s+book\s+"([^"]{15,})"` at the head. -/
def p3At (cs : List Char) : Option (String × Nat) :=
  (["her", "his"].map String.toList).findSome? fun kw =>
    if isPrefixCI kw cs then
      let rest := cs.drop kw.length
      let ws := rest.takeWhile isPySpace
      if ws.isEmpty then none
      else
        match kwQuoteAt [String.toList "book"] (rest.drop ws.length) with
        | some (content, k) => some (content, kw.length + ws.length + k)
        | none => none
    else none

def p3Scan : Nat → List Char → List String
  | _, [] => []
  | 0, _ => []
  | fuel + 1, c :: cs =>
    match p3At (c :: cs) with
    | some (content, k) => content :: p3Scan fuel (cs.drop (k - 1))
    | none => p3Scan fuel cs

/-- `finditer` for `author of\s+"([^"]{15,})"`. -/
def p4Scan : Nat → List Char → List String
  | _, [] => []
  | 0, _ => []
  | fuel + 1, c :: cs =>
    match kwQuoteAt [String.toList "author of"] (c :: cs) with
    | some (content, k) => content :: p4Scan fuel (cs.drop (k - 1))
    | none => p4Scan fuel cs

def check_book_title_accuracy (response : String) : List String :=
  let actual_titles := BOOK_METADATA.map fun b => pyLower b.1
  let cs := response.toList
  let fuel := cs.length + 1
  let mentions := p1Scan fuel cs ++ p2Scan fuel cs ++ p3Scan fuel cs ++ p4Scan fuel cs
  mentions.filterMap fun mention =>
    let mentioned_title := pyStrip (pyLower mention)
    let title_found := actual_titles.any fun actual =>
      containsSub actual mentioned_title || containsSub mentioned_title actual
    if !title_found then
      some s!"Mentioned book \x27{mention}\x27 not in source collection"
    else none

/-! ### Topic continuity and speculation -/

def check_topic_continuity (response query : String) (history : List Turn) :
    List String :=
  if (pySplit query).length > FOLLOWUP_MAX_WORDS || history.isEmpty then []
  else
    let prev_answer := (history.getLastD {}).assistant
    if prev_answer = "" then []
    else
      let prev_terms := techTerms (strTake prev_answer 400)
      let resp_terms := techTerms (strTake response 400)
      if !prev_terms.isEmpty && !resp_terms.isEmpty then
        let overlap : ℚ := (interCount prev_terms resp_terms : ℚ) / prev_terms.length
        if overlap < TOPIC_OVERLAP_THRESHOLD then
          ["Topic shifted from previous conversation"]
        else []
      else []

def SPECULATION_PHRASES : List String :=
  [ "likely", "probably", "might", "perhaps", "possibly", "could be",
    "seems to", "appears to", "i think", "i believe", "maybe", "presumably" ]

/-- Leftmost `\bphrase\b` match (CI); returns the matched slice of the
text (original case), i.e. `match.group()`. -/
def specFind (phrase : List Char) : Option Char → List Char → Option String
  | _, [] => none
  | prev, c :: cs =>
    if isPrefixCI phrase (c :: cs) && boundaryOK prev phrase.head? &&
       boundaryOK phrase.getLast? ((c :: cs).drop phrase.length).head? then
      some ⟨(c :: cs).take phrase.length⟩
    else specFind phrase (some c) cs

def checkSpecGo (response : String) : List String → List String → List String
  | [], issues => issues
  | p :: rest, issues =>
    match specFind p.toList none response.toList with
    | some m =>
      let issues := issues ++ [s!"Speculative language: \x27{m}\x27"]
      if issues.length ≥ 2 then issues else checkSpecGo response rest issues
    | none => checkSpecGo response rest issues

def check_speculation (response : String) : List String :=
  checkSpecGo response SPECULATION_PHRASES []

/-! ### `validate_response` -/

def VALIDATION_SKIP_PATTERNS : List String :=
  ["suggest", "recommend", "should i read", "best book for"]

/-- The claim loop of `validate_response`: accumulates
`(supported, total_conf, issues)`. -/
def claimStep (context : String) (acc : Nat × ℚ × List String) (claim : String) :
    Nat × ℚ × List String :=
  let fc := find_evidence claim context EVIDENCE_THRESHOLD
  if fc.1 then (acc.1 + 1, acc.2.1 + fc.2, acc.2.2)
  else
    let issues :=
      if acc.2.2.length < MAX_VALIDATION_ISSUES then
        acc.2.2 ++ [s!"Unsupported: {strTake claim 60}..."]
      else acc.2.2
    (acc.1, acc.2.1 + fc.2, issues)

def claims_fold (context : String) (claims : List String) :
    Nat × ℚ × List String :=
  claims.foldl (claimStep context) (0, 0, [])

def validate_response (response context query : String) (history : List Turn) :
    ValidationResult :=
  if response = "" then ⟨true, 1, []⟩
  else if pyStrip context = "" then ⟨false, 0, ["No source context available"]⟩
  else if strStartsWith response "I don\x27t have" || strStartsWith response "I cannot" then
    ⟨true, 1, []⟩
  else if VALIDATION_SKIP_PATTERNS.any (fun p => containsSub (pyLower query) p) then
    ⟨true, mkRat 75 100, []⟩
  else
    let claims := extract_claims response
    if claims.isEmpty then ⟨true, 1, []⟩
    else
      let (supported, total_conf, issues₀) := claims_fold context claims
      let issues := issues₀
        ++ check_number_accuracy response context
        ++ check_names_accuracy response context query
        ++ check_false_attribution response query context
        ++ check_book_title_accuracy response
        ++ check_topic_continuity response query history
        ++ check_speculation response
      let ratio : ℚ := (supported : ℚ) / claims.length
      let avg_conf : ℚ := total_conf / claims.length
      let final_conf := ratio * (6 / 10) + avg_conf * (4 / 10)
      let is_valid := decide (final_conf ≥ VALIDATION_THRESHOLD) &&
        decide (issues.length ≤ MAX_VALIDATION_ISSUES)
      ⟨is_valid, final_conf, issues.take MAX_VALIDATION_ISSUES⟩

/-! ## `src/core/retriever.py`

The vector store, the BM25 index and the flashrank reranker are external
services; they are modelled as the function fields of `Collab`, and
`hashlib.md5` as an abstract digest function. -/

structure Meta where
  book_title : Option String := none
  page : Option String := none
  chapter_title : Option String := none
  section_title : Option String := none
  content_type : Option String := none
  author : Option String := none
deriving Repr, DecidableEq

structure Doc where
  page_content : String
  metadata : Meta
deriving Repr, DecidableEq

structure Passage where
  id : Nat
  text : String
  meta : Meta
  similarity_score : ℚ
deriving Repr, DecidableEq

structure BmDoc where
  text : String
  meta : Meta
  bm25_score : ℚ
deriving Repr, DecidableEq

structure RDoc where
  id : Nat
  text : String
  meta : Meta
  score : ℚ
deriving Repr, DecidableEq

structure RerankRequest where
  query : String
  passages : List Passage
deriving Repr, DecidableEq

structure SourceInfo where
  source : String
  score : ℚ
  metadata : Meta
deriving Repr, DecidableEq

structure RetrievalStats where
  books_searched : Nat
  books : List String
deriving Repr, DecidableEq

structure RetrievalOutput where
  context : String
  sources : List SourceInfo
  stats : RetrievalStats
deriving Repr, DecidableEq

/-- The filter argument of `vectorstore.similarity_search_with_score`. -/
inductive SFilter where
  | noFilter
  | byBook (book : String)
  | byToc
  | byTocAndBook (book : String)
deriving Repr, DecidableEq

/-- The external collaborators of `retrieve_context`. -/
structure Collab where
  similarity : String → Nat → SFilter → List (Doc × ℚ)
  bm25 : String → Nat → List BmDoc
  rerank : RerankRequest → List RDoc
  md5 : String → String

def get_book_list : List String := BOOK_METADATA.map fun b => b.1

def format_source (meta : Meta) : String :=
  let book := meta.book_title.getD "Unknown"
  let parts := [s!"📖 {book}"]
  let parts := parts ++
    (if meta.content_type = some "table_of_contents" then ["📑 TOC"]
     else match meta.page with
       | some p => [s!"p.{p}"]
       | none => [])
  let parts := parts ++
    (match meta.section_title with
     | some st => [s!"§ {st}"]
     | none =>
       match meta.chapter_title with
       | some ct => [s!"Ch: {ct}"]
       | none => [])
  let author := meta.author.getD ""
  let parts := parts ++ (if author ≠ "" && author ≠ "Unknown" then [s!"by {author}"] else [])
  strJoin " | " parts

/-- `re.sub(r'\s+', ' ', ...)`: collapse every whitespace run to one space. -/
def collapseWSAux : Bool → List Char → List Char
  | _, [] => []
  | inWS, c :: cs =>
    if isPySpace c then
      if inWS then collapseWSAux true cs else ' ' :: collapseWSAux true cs
    else c :: collapseWSAux false cs

def content_hash (md5 : String → String) (text : String) (meta : Meta) : String :=
  let key := strTake text 300 ++ "|" ++ meta.book_title.getD "" ++ "|" ++
    meta.page.getD "" ++ "|" ++ meta.chapter_title.getD ""
  md5 ⟨collapseWSAux false (pyStrip (pyLower key)).toList⟩

def search_book (C : Collab) (query : String) (book : String) (k : Nat) :
    List (Doc × ℚ) :=
  C.similarity query k (.byBook book)

/-- `search_books_parallel`: the thread-pool completion order is
nondeterministic; modelled as submission (book-list) order. -/
def search_books_parallel (C : Collab) (query : String) (books : List String)
    (k_per_book : Nat) : List (Doc × ℚ) :=
  books.flatMap fun b => search_book C query b k_per_book

/-- `re.sub(r'\s+', '', ...)`: delete all whitespace. -/
def stripAllWS (s : String) : String :=
  ⟨s.toList.filter fun c => !isPySpace c⟩

def dedupGo (md5 : String → String) :
    List (Doc × ℚ) → List String → List String → Nat → List Passage
  | [], _, _, _ => []
  | (doc, score) :: rest, seenH, seenC, n =>
    let h := content_hash md5 doc.page_content doc.metadata
    let content_key := stripAllWS (pyLower (strTake doc.page_content 200))
    if !seenH.contains h && !seenC.contains content_key then
      ⟨n, doc.page_content, doc.metadata, score⟩ ::
        dedupGo md5 rest (h :: seenH) (content_key :: seenC) (n + 1)
    else dedupGo md5 rest seenH seenC n

def deduplicate (md5 : String → String) (results : List (Doc × ℚ)) : List Passage :=
  dedupGo md5 results [] [] 0

/-! ### Query expansion -/

def VAGUE_INDICATORS : List String :=
  ["these", "this", "that", "those", "it", "them", "things"]

def REFERENCE_PATTERNS : List Pattern :=
  [wordP "which book", wordP "what book", wordP "the book", wordP "source"]

/-- `re.findall(r'\b[A-Z]{2,6}\b', text)`: entire uppercase word runs of
length 2–6. -/
def acronymsOf (s : String) : List String :=
  (tokens s).filterMap fun t =>
    if allUpper t.1 && 2 ≤ t.1.length && t.1.length ≤ 6 then some ⟨t.1⟩ else none

/-- `re.findall(r'\b[A-Z][a-z]+(?:[A-Z][a-z]+)+\b', text)`. -/
def camelsOf (s : String) : List String :=
  (tokens s).filterMap fun t => if isCamel t.1 then some ⟨t.1⟩ else none

def IMPORTANT_WORDS : List String :=
  [ "pipeline", "system", "model", "training", "inference", "feature",
    "architecture", "mvp", "step", "steps", "building" ]

/-- `re.findall(r'\b(?:pipeline|...|steps?|building)\b', text, re.I)`:
entire word runs equal (CI) to one of the alternatives. -/
def importantOf (s : String) : List String :=
  (wordRuns s).filter fun r => IMPORTANT_WORDS.contains (pyLower r)

/-- Add elements to a Python-set model (insertion-ordered, no duplicates). -/
def insertAll (ks l : List String) : List String :=
  l.foldl (fun s x => if s.contains x then s else s ++ [x]) ks

def expand_vague_query (query : String) (history : List Turn)
    (_intent : Option QueryIntent) : String :=
  let query_lower := pyLower query
  let has_vague := (pySplit query_lower).any fun w => VAGUE_INDICATORS.contains w
  let has_reference := anySearch REFERENCE_PATTERNS query_lower
  let word_count := (pySplit query).length
  let is_short := word_count ≤ 10
  if history.isEmpty then query
  else if !(has_vague || has_reference || is_short) then query
  else
    let last := history.getLastD {}
    let prev_query := last.user
    let prev_answer := strTake last.assistant 500
    if prev_answer = "" then query
    else
      let key_terms := [prev_query, prev_answer].foldl
        (fun ks text =>
          let ks := insertAll ks ((acronymsOf text).take 3)
          let ks := insertAll ks ((camelsOf text).take 3)
          insertAll ks (((importantOf text).take 4).map pyLower))
        []
      if !key_terms.isEmpty then
        query ++ " " ++ strJoin " " (key_terms.take 5)
      else if prev_query ≠ "" && is_short then
        prev_query ++ " " ++ query
      else query

/-! ### `retrieve_context` (lines 199–311), staged -/

/-- Lines 201–242: the per-intent similarity searches. -/
def gathered_results (C : Collab) (query : String) (intent : QueryIntent)
    (book_filter : String) (top_k : Nat) (search_query : String) :
    List (Doc × ℚ) :=
  if intent = .CROSS_BOOK || intent = .COMPARISON then
    search_books_parallel C search_query get_book_list 3
  else if (intent = .SPECIFIC_BOOK || intent = .FOLLOWUP || intent = .STRUCTURE)
      && book_filter ≠ "" then
    (if intent = .STRUCTURE then
      C.similarity (search_query ++ " table of contents chapters sections")
        (top_k * 3) (.byTocAndBook book_filter)
     else []) ++
    C.similarity search_query (top_k * 3) (.byBook book_filter)
  else if intent = .STRUCTURE then
    C.similarity (query ++ " table of contents") (top_k * 2) .byToc ++
    C.similarity query (top_k * 2) .noFilter
  else
    C.similarity query (top_k * 4) .noFilter

/-- Lines 252–261: merge BM25 passages not already present by leading
200 characters. -/
def bm25_merge (passages : List Passage) (bm25_results : List BmDoc) :
    List Passage :=
  (bm25_results.foldl
    (fun (acc : List Passage × List String) bdoc =>
      if acc.2.contains (strTake bdoc.text 200) then acc
      else (acc.1 ++ [⟨acc.1.length, bdoc.text, bdoc.meta, mkRat 1 2⟩],
            acc.2 ++ [strTake bdoc.text 200]))
    (passages, passages.map fun p => strTake p.text 200)).1

/-- The `RerankRequest` issued at line 266, or `none` when one of the
early empty returns (lines 247–248, 263–264) fires first. -/
def rank_request (C : Collab) (query : String) (intent : QueryIntent)
    (book_filter : String) (top_k : Nat) (history : List Turn) :
    Option RerankRequest :=
  let search_query := expand_vague_query query history (some intent)
  let results := gathered_results C query intent book_filter top_k search_query
  let bm25_results := C.bm25 search_query (top_k * 2)
  if results.isEmpty && bm25_results.isEmpty then none
  else
    let passages := bm25_merge (deduplicate C.md5 results) bm25_results
    if passages.isEmpty then none else some ⟨search_query, passages⟩

/-- Stable descending sort by score (`sorted(..., reverse=True)`),
as insertion sort. -/
def insertDesc (d : RDoc) : List RDoc → List RDoc
  | [] => [d]
  | e :: t => if e.score > d.score then e :: insertDesc d t else d :: e :: t

def sortScoreDesc : List RDoc → List RDoc
  | [] => []
  | x :: xs => insertDesc x (sortScoreDesc xs)

/-- Lines 283–292: the per-book diversity cap for `CROSS_BOOK` /
`COMPARISON`; `counts` is the `book_counts` defaultdict, `selected` the
`top_docs` accumulator. -/
def selectDiverse (top_k : Nat) : List RDoc → (String → Nat) → List RDoc → List RDoc
  | [], _, selected => selected
  | d :: rest, counts, selected =>
    let book := d.meta.book_title.getD "Unknown"
    if counts book < 2 then
      let counts' := fun b => if b = book then counts b + 1 else counts b
      let selected' := selected ++ [d]
      if selected'.length ≥ top_k then selected'
      else selectDiverse top_k rest counts' selected'
    else
      if selected.length ≥ top_k then selected
      else selectDiverse top_k rest counts selected

/-- Lines 266–281: rerank, relevance floor, TOC boost, descending sort
(`sorted_docs` of the source). -/
def retrieve_sorted_docs (C : Collab) (query : String) (intent : QueryIntent)
    (book_filter : String) (top_k : Nat) (history : List Turn) : List RDoc :=
  match rank_request C query intent book_filter top_k history with
  | none => []
  | some req =>
    let reranked := (C.rerank req).filter fun d => d.score ≥ mkRat 1 10
    if reranked.isEmpty then []
    else
      let reranked :=
        if intent = .STRUCTURE then
          reranked.map fun d =>
            if d.meta.content_type = some "table_of_contents" then
              ⟨d.id, d.text, d.meta, d.score * 2⟩
            else d
        else reranked
      sortScoreDesc reranked

/-- Lines 283–294: the final selection (`top_docs` of the source). -/
def retrieve_top_docs (C : Collab) (query : String) (intent : QueryIntent)
    (book_filter : String) (top_k : Nat) (history : List Turn) : List RDoc :=
  let sorted_docs := retrieve_sorted_docs C query intent book_filter top_k history
  if intent = .CROSS_BOOK || intent = .COMPARISON then
    selectDiverse top_k sorted_docs (fun _ => 0) []
  else sorted_docs.take top_k

/-- Lines 296–311 (and the early empty returns, which coincide with
rendering an empty `top_docs`).  `books_used` is a Python set; modelled
in insertion order. -/
def retrieve_context (C : Collab) (query : String) (intent : QueryIntent)
    (book_filter : String) (top_k : Nat) (history : List Turn) :
    RetrievalOutput :=
  let top_docs := retrieve_top_docs C query intent book_filter top_k history
  let sources := top_docs.map fun d => SourceInfo.mk (format_source d.meta) d.score d.meta
  let context_parts := (top_docs.enumFrom 1).map fun idoc =>
    let i := idoc.1
    let book := idoc.2.meta.book_title.getD "Unknown"
    let text := idoc.2.text
    s!"[Source {i} - {book}]\n{text}"
  let books_used := dedupKeepFirst (top_docs.map fun d => d.meta.book_title.getD "Unknown")
  ⟨strJoin "\n\n---\n\n" context_parts, sources,
    ⟨books_used.length, books_used⟩⟩

/-! ## `src/utils/cache.py`

`hashlib.sha256(...).hexdigest()[:16]` is modelled as an abstract key
function; timestamps as rationals measured in hours (so the TTL check
`datetime.now() - ts < timedelta(hours=24)` is `now - ts < 24`).
Persistence (`_save_cache` / `_load_cache`) is I/O and out of scope. -/

structure CacheEntry where
  query : String
  book_filter : String
  response : String
  sources : List String
  timestamp : ℤ
deriving Repr, DecidableEq

/-- The `OrderedDict` as an association list: front = least recently
used, back = most recently used. -/
abbrev Cache := List (String × CacheEntry)

def CACHE_TTL_HOURS : ℤ := 24
def MAX_CACHE_SIZE : Nat := 500

/-- `QueryCache.get`: returns the hit (if any) and the updated ordered
dict (`move_to_end` on a fresh hit, deletion of an expired entry). -/
def qc_get (keyFn : String → String → String) (c : Cache)
    (query book_filter : String) (now : ℤ) : Option CacheEntry × Cache :=
  match c.find? fun kv => kv.1 = keyFn query book_filter with
  | some kv =>
    if now - kv.2.timestamp < CACHE_TTL_HOURS then
      (some kv.2, (c.eraseP fun kv' => kv'.1 = keyFn query book_filter) ++
        [(keyFn query book_filter, kv.2)])
    else
      (none, c.eraseP fun kv' => kv'.1 = keyFn query book_filter)
  | none => (none, c)

/-- `while len(self.cache) > self.max_size: self.cache.popitem(last=False)`. -/
def evict_lru (max_size : Nat) : Cache → Cache
  | [] => []
  | kv :: t => if (kv :: t).length > max_size then evict_lru max_size t else kv :: t

/-- `QueryCache.set`: store/overwrite, move to the back, evict from the
front beyond capacity. -/
def qc_set (keyFn : String → String → String) (c : Cache)
    (query book_filter response : String) (sources : List String)
    (now : ℤ) (max_size : Nat) : Cache :=
  evict_lru max_size
    ((c.eraseP fun kv => kv.1 = keyFn query book_filter) ++
      [(keyFn query book_filter, ⟨query, book_filter, response, sources, now⟩)])

/-! # Theorems for the claims -/

set_option maxHeartbeats 1000000 in
/-- Claim C8: for every query and history, the `(intent, book_scope)` pair
returned by `detect_query_intent` has a non-empty scope only when the
intent is `SPECIFIC_BOOK`, `STRUCTURE`, or `FOLLOWUP`; all other intents
always carry the empty scope. -/
theorem C8_scope_only_for_book_intents (query : String) (history : List Turn)
    (h : (detect_query_intent query history).2 ≠ "") :
    (detect_query_intent query history).1 = QueryIntent.SPECIFIC_BOOK ∨
    (detect_query_intent query history).1 = QueryIntent.STRUCTURE ∨
    (detect_query_intent query history).1 = QueryIntent.FOLLOWUP := by
  revert h
  unfold detect_query_intent
  dsimp only
  split_ifs <;> intro h <;>
    first
      | exact absurd rfl h
      | exact Or.inl rfl
      | exact Or.inr (Or.inl rfl)
      | exact Or.inr (Or.inr rfl)

/-- Witness for C8 at a concrete input: the query "chip huyen" matches an
author pattern, so the scope is the matched book title and the intent is
`SPECIFIC_BOOK`. -/
theorem C8_scope_only_for_book_intents_witness :
    (detect_query_intent "chip huyen" []).2 ≠ "" ∧
    ((detect_query_intent "chip huyen" []).1 = QueryIntent.SPECIFIC_BOOK ∨
     (detect_query_intent "chip huyen" []).1 = QueryIntent.STRUCTURE ∨
     (detect_query_intent "chip huyen" []).1 = QueryIntent.FOLLOWUP) :=
  ⟨by decide, C8_scope_only_for_book_intents "chip huyen" [] (by decide)⟩

/-- Claim C4 (counterexample): "what are you" has 3 words, the history is
non-empty, and the query contains no book, cross-book or comparison
marker, yet the intent is `META`, not `FOLLOWUP` — the meta check runs
before the follow-up check. -/
theorem C4_followup_counterexample :
    (pySplit "what are you").length < 5 ∧
    (Turn.mk "u" "a" "" :: []) ≠ [] ∧
    extract_book_reference "what are you" = "" ∧
    has_cross_book_intent "what are you" = false ∧
    has_comparison_intent "what are you" = false ∧
    (detect_query_intent "what are you" [Turn.mk "u" "a" ""]).1 ≠
      QueryIntent.FOLLOWUP := by
  refine ⟨by decide, by decide, by decide, by decide, by decide, by decide⟩

/-- Claim C4 (amended): for every query with fewer than 5 words, non-empty
history, and no explicit book reference, cross-book, comparison, meta,
list-books, or structure phrasing, `detect_query_intent` returns
`FOLLOWUP`. -/
theorem C4_short_queries_are_followups (query : String) (history : List Turn)
    (hwc : (pySplit query).length < 5) (hh : history ≠ [])
    (hm : has_meta_intent query = false)
    (hl : has_list_books_intent query = false)
    (hb : extract_book_reference query = "")
    (hc : has_cross_book_intent query = false)
    (hcomp : has_comparison_intent query = false)
    (hs : has_structure_intent query = false) :
    (detect_query_intent query history).1 = QueryIntent.FOLLOWUP := by
  have hne : history.isEmpty = false := by
    cases history with
    | nil => exact absurd rfl hh
    | cons a t => rfl
  have hf : is_followup query history = true := by
    unfold is_followup
    rw [hne]
    simp only [Bool.false_eq_true, if_false]
    split_ifs with h₁
    · rfl
    · simp only [FOLLOWUP_MAX_WORDS, decide_eq_true_eq]
      omega
  unfold detect_query_intent
  simp only [hm, hl, hb, hc, hcomp, hs, hf, Bool.false_eq_true, if_false,
    ne_eq, not_true_eq_false, Bool.and_false, Bool.and_true]
  split_ifs <;> rfl

/-- Witness for C4 (amended) at the concrete query "more" with a
one-turn history. -/
theorem C4_short_queries_are_followups_witness :
    (detect_query_intent "more" [Turn.mk "u" "a" ""]).1 = QueryIntent.FOLLOWUP :=
  C4_short_queries_are_followups "more" [Turn.mk "u" "a" ""]
    (by decide) (by decide) (by decide) (by decide) (by decide) (by decide)
    (by decide) (by decide)

/-- Claim C2 (counterexample): with an empty context, the fixed
"I don\x27t have information..." answer is rejected — the empty-context
hard failure fires before the admission short-circuit, so the claim's
"for every context" fails. -/
theorem C2_idk_counterexample :
    (validate_response "I don\x27t have information about that in these books."
      "" "any query" []).is_valid = false := by decide

/-- Claim C2 (amended): for every context with at least one
non-whitespace character, every query and history, the answer consisting
solely of "I don\x27t have information about that in these books." validates
as `(is_valid = true, confidence = 1, issues = [])`. -/
theorem C2_idk_always_valid (context query : String) (history : List Turn)
    (h : pyStrip context ≠ "") :
    validate_response "I don\x27t have information about that in these books."
      context query history = ⟨true, 1, []⟩ := by
  unfold validate_response
  rw [if_neg (by decide), if_neg h, if_pos (by decide)]

/-- Witness for C2 (amended) at the concrete context "x". -/
theorem C2_idk_always_valid_witness :
    pyStrip "x" ≠ "" ∧
    validate_response "I don\x27t have information about that in these books."
      "x" "q" [] = ⟨true, 1, []⟩ :=
  ⟨by decide, C2_idk_always_valid "x" "q" [] (by decide)⟩

/-- Claim C3 (counterexample): for a recommendation-style query the
short-circuit returns confidence 0.75, not the claimed 1.0. -/
theorem C3_recommendation_counterexample :
    (validate_response "Try reading widely." "c" "please suggest" []).confidence
      ≠ 1 := by decide

/-- Claim C3 (amended): `validate_response` short-circuits to
`(true, 1, [])` for an empty answer, and (when the context is non-blank)
for an answer beginning with an "I don\x27t have"/"I cannot" admission; for a
recommendation-style query it short-circuits to `(true, 0.75, [])`; an
empty context with a non-empty answer is a hard failure
`(false, 0, ["No source context available"])`. -/
theorem C3_short_circuits :
    (∀ context query history,
      validate_response "" context query history = ⟨true, 1, []⟩) ∧
    (∀ response context query history, pyStrip context ≠ "" →
      (strStartsWith response "I don\x27t have" || strStartsWith response "I cannot") = true →
      validate_response response context query history = ⟨true, 1, []⟩) ∧
    (∀ response context query history, response ≠ "" → pyStrip context ≠ "" →
      (strStartsWith response "I don\x27t have" || strStartsWith response "I cannot") = false →
      (VALIDATION_SKIP_PATTERNS.any fun p => containsSub (pyLower query) p) = true →
      validate_response response context query history = ⟨true, mkRat 75 100, []⟩) ∧
    (∀ response context query history, response ≠ "" → pyStrip context = "" →
      validate_response response context query history =
        ⟨false, 0, ["No source context available"]⟩) := by
  refine ⟨fun context query history => by unfold validate_response; rw [if_pos rfl],
    fun response context query history hctx hadm => ?_,
    fun response context query history hresp hctx hadm hskip => ?_,
    fun response context query history hresp hctx => ?_⟩
  · by_cases hresp : response = ""
    · unfold validate_response; rw [if_pos hresp]
    · unfold validate_response; rw [if_neg hresp, if_neg hctx, if_pos hadm]
  · unfold validate_response
    rw [if_neg hresp, if_neg hctx, if_neg (by simp [hadm]), if_pos hskip]
  · unfold validate_response
    rw [if_neg hresp, if_pos hctx]

/-- Witness for C3 (amended): each short-circuit at a concrete input. -/
theorem C3_short_circuits_witness :
    validate_response "" "c" "q" [] = ⟨true, 1, []⟩ ∧
    validate_response "I cannot say." "c" "q" [] = ⟨true, 1, []⟩ ∧
    validate_response "Try reading widely." "c" "please suggest" [] =
      ⟨true, mkRat 75 100, []⟩ ∧
    validate_response "Some answer." " " "q" [] =
      ⟨false, 0, ["No source context available"]⟩ :=
  ⟨C3_short_circuits.1 "c" "q" [],
   C3_short_circuits.2.1 "I cannot say." "c" "q" [] (by decide) (by decide),
   C3_short_circuits.2.2.1 "Try reading widely." "c" "please suggest" []
     (by decide) (by decide) (by decide) (by decide),
   C3_short_circuits.2.2.2 "Some answer." " " "q" [] (by decide) (by decide)⟩

/-- Claim C10: a claim with no word of length ≥ 4 (after lowercasing) is
always fully supported: `find_evidence` returns `(supported := true,
score := 1)` for every context, and the claim loop of `validate_response`
counts it as supported with full confidence. -/
theorem C10_short_claims_supported (claim context : String)
    (h : wordSet4 (pyLower claim) = []) :
    find_evidence claim context EVIDENCE_THRESHOLD = (true, 1) ∧
    ∀ s t iss, claimStep context (s, t, iss) claim = (s + 1, t + 1, iss) := by
  have hfe : find_evidence claim context EVIDENCE_THRESHOLD = (true, 1) := by
    unfold find_evidence
    rw [h]
    rfl
  refine ⟨hfe, fun s t iss => ?_⟩
  simp only [claimStep, hfe]
  simp

/-- Witness for C10 at the concrete claim "it is so ok." -/
theorem C10_short_claims_supported_witness :
    wordSet4 (pyLower "it is so ok.") = [] ∧
    find_evidence "it is so ok." "any context" EVIDENCE_THRESHOLD = (true, 1) ∧
    claimStep "any context" (0, 0, []) "it is so ok." = (1, 1, []) := by
  have h : wordSet4 (pyLower "it is so ok.") = [] := by decide
  have H := C10_short_claims_supported "it is so ok." "any context" h
  exact ⟨h, H.1, by have h2 := H.2 0 0 []; simpa using h2⟩

/-! ### Claim C5 -/

lemma length_take_two {α : Type} (l : List α) : (l.take 2).length ≤ 2 := by
  simp [List.length_take]

lemma checkSpecGo_length (r : String) :
    ∀ (pats : List String) (acc : List String), acc.length ≤ 1 →
      (checkSpecGo r pats acc).length ≤ 2 := by
  intro pats
  induction pats with
  | nil => intro acc h; unfold checkSpecGo; omega
  | cons p rest ih =>
    intro acc h
    unfold checkSpecGo
    cases hf : specFind p.toList none r.toList with
    | none => exact ih acc h
    | some m =>
      simp only
      split_ifs with hlen
      · simp only [List.length_append, List.length_cons, List.length_nil]
        omega
      · refine ih _ ?_
        simp only [List.length_append, List.length_cons, List.length_nil] at hlen ⊢
        omega

/-- Claim C5 (counterexample): the fabricated-book-title check has no
cap — a single fabricated mention of the form `her book "..." published`
matches three of its four patterns and yields three issues, exceeding the
claimed bound of 2. -/
theorem C5_book_title_unbounded_counterexample :
    (check_book_title_accuracy
      "Read her book \"abcdefghijklmnopqr\" published recently.").length = 3 := by
  decide

/-- Claim C5 (amended): of the validator's additional checks, the
number-accuracy, proper-name, false-attribution, topic-continuity and
speculative-language checks each contribute at most 2 issues for every
answer, context, query and history; the fabricated-book-title check is
not bounded. -/
theorem C5_bounded_issue_checks (response context query : String)
    (history : List Turn) :
    (check_number_accuracy response context).length ≤ 2 ∧
    (check_names_accuracy response context query).length ≤ 2 ∧
    (check_false_attribution response query context).length ≤ 2 ∧
    (check_topic_continuity response query history).length ≤ 2 ∧
    (check_speculation response).length ≤ 2 := by
  refine ⟨?_, ?_, ?_, ?_, ?_⟩
  · exact length_take_two _
  · exact length_take_two _
  · unfold check_false_attribution
    cases h1 : respAttrFind response.toList with
    | none => simp
    | some r =>
      cases h2 : queryAttrFind query.toList with
      | none => simp
      | some q =>
        dsimp only
        split_ifs <;> simp
  · unfold check_topic_continuity
    split
    · simp
    · rename_i hgate
      simp only []
      split
      · simp
      · split
        · split <;> simp
        · simp
  · exact checkSpecGo_length response SPECULATION_PHRASES [] (by simp)

/-! ### Claim C9 -/

/-- Repackage a deduplicated passage as the `(doc, score)` pair a second
deduplication pass would consume. -/
def passageToPair (p : Passage) : Doc × ℚ :=
  (⟨p.text, p.meta⟩, p.similarity_score)

/-- The fingerprint `content_hash` computes for a result pair. -/
def pairHash (md5 : String → String) (x : Doc × ℚ) : String :=
  content_hash md5 x.1.page_content x.1.metadata

/-- The normalized 200-character prefix key `deduplicate` computes. -/
def pairKey (x : Doc × ℚ) : String :=
  stripAllWS (pyLower (strTake x.1.page_content 200))

lemma dedupGo_nil (md5 : String → String) (sH sC : List String) (n : Nat) :
    dedupGo md5 [] sH sC n = [] := rfl

lemma dedupGo_cons (md5 : String → String) (d : Doc) (s : ℚ)
    (t : List (Doc × ℚ)) (sH sC : List String) (n : Nat) :
    dedupGo md5 ((d, s) :: t) sH sC n =
      if (!sH.contains (content_hash md5 d.page_content d.metadata) &&
          !sC.contains (stripAllWS (pyLower (strTake d.page_content 200)))) = true then
        ⟨n, d.page_content, d.metadata, s⟩ ::
          dedupGo md5 t (content_hash md5 d.page_content d.metadata :: sH)
            (stripAllWS (pyLower (strTake d.page_content 200)) :: sC) (n + 1)
      else dedupGo md5 t sH sC n := rfl

lemma dedupGo_fresh (md5 : String → String) (xs : List (Doc × ℚ)) :
    ∀ (sH sC : List String) (n : Nat), ∀ p ∈ dedupGo md5 xs sH sC n,
      sH.contains (pairHash md5 (passageToPair p)) = false ∧
      sC.contains (pairKey (passageToPair p)) = false := by
  induction xs with
  | nil => intro sH sC n p hp; rw [dedupGo_nil] at hp; cases hp
  | cons x t ih =>
    intro sH sC n p hp
    obtain ⟨d, s⟩ := x
    rw [dedupGo_cons] at hp
    by_cases hc :
        (!sH.contains (content_hash md5 d.page_content d.metadata) &&
         !sC.contains (stripAllWS (pyLower (strTake d.page_content 200)))) = true
    · rw [if_pos hc] at hp
      rcases List.mem_cons.mp hp with rfl | hmem
      · simp only [Bool.and_eq_true, Bool.not_eq_true'] at hc
        exact ⟨hc.1, hc.2⟩
      · have := ih _ _ _ p hmem
        simp only [List.contains_cons, Bool.or_eq_false_iff] at this
        exact ⟨this.1.2, this.2.2⟩
    · rw [if_neg hc] at hp
      exact ih _ _ _ p hp

lemma dedupGo_twice (md5 : String → String) (xs : List (Doc × ℚ)) :
    ∀ (sH sC : List String) (n : Nat) (sH' sC' : List String),
      (∀ p ∈ dedupGo md5 xs sH sC n,
        sH'.contains (pairHash md5 (passageToPair p)) = false ∧
        sC'.contains (pairKey (passageToPair p)) = false) →
      dedupGo md5 ((dedupGo md5 xs sH sC n).map passageToPair) sH' sC' n =
        dedupGo md5 xs sH sC n := by
  induction xs with
  | nil => intro sH sC n sH' sC' _; rfl
  | cons x t ih =>
    intro sH sC n sH' sC' hfresh
    obtain ⟨d, s⟩ := x
    by_cases hc :
        (!sH.contains (content_hash md5 d.page_content d.metadata) &&
         !sC.contains (stripAllWS (pyLower (strTake d.page_content 200)))) = true
    · have hout : dedupGo md5 ((d, s) :: t) sH sC n =
          ⟨n, d.page_content, d.metadata, s⟩ ::
            dedupGo md5 t (content_hash md5 d.page_content d.metadata :: sH)
              (stripAllWS (pyLower (strTake d.page_content 200)) :: sC) (n + 1) := by
        rw [dedupGo_cons, if_pos hc]
      rw [hout]
      have hhead := hfresh ⟨n, d.page_content, d.metadata, s⟩
        (by rw [hout]; exact List.mem_cons_self _ _)
      simp only [pairHash, pairKey, passageToPair] at hhead
      rw [List.map_cons]
      have hpp : passageToPair ⟨n, d.page_content, d.metadata, s⟩ =
          (⟨d.page_content, d.metadata⟩, s) := rfl
      rw [hpp, dedupGo_cons, if_pos (by
        simp only [Bool.and_eq_true, Bool.not_eq_true']
        exact ⟨hhead.1, hhead.2⟩)]
      congr 1
      apply ih
      intro p hp
      have hfr := dedupGo_fresh md5 t _ _ _ p hp
      have houter := hfresh p (by rw [hout]; exact List.mem_cons_of_mem _ hp)
      simp only [List.contains_cons, Bool.or_eq_false_iff] at hfr
      simp only [List.contains_cons, Bool.or_eq_false_iff]
      exact ⟨⟨hfr.1.1, houter.1⟩, ⟨hfr.2.1, houter.2⟩⟩
    · have hout : dedupGo md5 ((d, s) :: t) sH sC n = dedupGo md5 t sH sC n := by
        rw [dedupGo_cons, if_neg hc]
      rw [hout]
      exact ih _ _ _ _ _ (fun p hp => hfresh p (by rw [hout]; exact hp))

/-- Claim C9: deduplication is idempotent — re-running `deduplicate` on
the `(doc, score)` repackaging of its own output keeps every passage (ids
and scores included), for every fingerprint function. -/
theorem C9_deduplicate_idempotent (md5 : String → String)
    (results : List (Doc × ℚ)) :
    deduplicate md5 ((deduplicate md5 results).map passageToPair) =
      deduplicate md5 results := by
  unfold deduplicate
  exact dedupGo_twice md5 results [] [] 0 [] [] (fun p _ => ⟨rfl, rfl⟩)

/-! ### Claim C6 -/

/-- `doc["meta"].get("book_title", "Unknown")`. -/
def bookOf (d : RDoc) : String := d.meta.book_title.getD "Unknown"

def countBook (b : String) (l : List RDoc) : Nat :=
  l.countP fun d => bookOf d == b

def countSourceBook (b : String) (l : List SourceInfo) : Nat :=
  l.countP fun s => s.metadata.book_title.getD "Unknown" == b

/-- The distinct books appearing in the reranked, floored, sorted result
list — the "books with results" of the claim. -/
def books_with_results (C : Collab) (query : String) (intent : QueryIntent)
    (book_filter : String) (top_k : Nat) (history : List Turn) : List String :=
  dedupKeepFirst
    ((retrieve_sorted_docs C query intent book_filter top_k history).map bookOf)

lemma selectDiverse_nil (top_k : Nat) (counts : String → Nat)
    (selected : List RDoc) : selectDiverse top_k [] counts selected = selected := rfl

lemma selectDiverse_cons (top_k : Nat) (d : RDoc) (rest : List RDoc)
    (counts : String → Nat) (selected : List RDoc) :
    selectDiverse top_k (d :: rest) counts selected =
      if counts (bookOf d) < 2 then
        (if (selected ++ [d]).length ≥ top_k then selected ++ [d]
         else selectDiverse top_k rest
           (fun b => if b = bookOf d then counts b + 1 else counts b)
           (selected ++ [d]))
      else
        (if selected.length ≥ top_k then selected
         else selectDiverse top_k rest counts selected) := rfl

lemma selectDiverse_exists_sublist (top_k : Nat) (docs : List RDoc) :
    ∀ (counts : String → Nat) (selected : List RDoc),
      ∃ t, selectDiverse top_k docs counts selected = selected ++ t ∧
        t.Sublist docs := by
  induction docs with
  | nil => intro counts selected; exact ⟨[], by simp [selectDiverse_nil]⟩
  | cons d rest ih =>
    intro counts selected
    rw [selectDiverse_cons]
    by_cases h1 : counts (bookOf d) < 2
    · rw [if_pos h1]
      by_cases h2 : (selected ++ [d]).length ≥ top_k
      · rw [if_pos h2]
        exact ⟨[d], rfl, (List.nil_sublist rest).cons₂ d⟩
      · rw [if_neg h2]
        obtain ⟨t, ht, hsub⟩ := ih _ (selected ++ [d])
        exact ⟨d :: t, by rw [ht, List.append_assoc]; rfl, hsub.cons₂ d⟩
    · rw [if_neg h1]
      by_cases h2 : selected.length ≥ top_k
      · rw [if_pos h2]; exact ⟨[], by simp, List.nil_sublist _⟩
      · rw [if_neg h2]
        obtain ⟨t, ht, hsub⟩ := ih counts selected
        exact ⟨t, ht, hsub.cons d⟩

lemma selectDiverse_count (top_k : Nat) (docs : List RDoc) :
    ∀ (counts : String → Nat) (selected : List RDoc),
      (∀ b, countBook b selected = counts b) → (∀ b, counts b ≤ 2) →
      ∀ b, countBook b (selectDiverse top_k docs counts selected) ≤ 2 := by
  induction docs with
  | nil =>
    intro counts selected hinv hbound b
    rw [selectDiverse_nil, hinv]
    exact hbound b
  | cons d rest ih =>
    intro counts selected hinv hbound b
    have hstep : ∀ b', countBook b' (selected ++ [d]) =
        (if b' = bookOf d then counts b' + 1 else counts b') := by
      intro b'
      rw [countBook, List.countP_append]
      have hone : List.countP (fun x => bookOf x == b') [d] =
          if b' = bookOf d then 1 else 0 := by
        by_cases hb : b' = bookOf d
        · simp [List.countP_cons, hb]
        · have hne : (bookOf d == b') = false :=
            beq_eq_false_iff_ne.mpr fun hcon => hb hcon.symm
          simp [List.countP_cons, hne, hb]
      rw [hone]
      have base := hinv b'
      rw [countBook] at base
      rw [base]
      by_cases hb : b' = bookOf d <;> simp [hb]
    rw [selectDiverse_cons]
    by_cases h1 : counts (bookOf d) < 2
    · rw [if_pos h1]
      have hbound' : ∀ b', (if b' = bookOf d then counts b' + 1 else counts b') ≤ 2 := by
        intro b'
        by_cases hb : b' = bookOf d
        · rw [if_pos hb, hb]; omega
        · rw [if_neg hb]; exact hbound b'
      by_cases h2 : (selected ++ [d]).length ≥ top_k
      · rw [if_pos h2, hstep]
        exact hbound' b
      · rw [if_neg h2]
        exact ih _ _ hstep hbound' b
    · rw [if_neg h1]
      by_cases h2 : selected.length ≥ top_k
      · rw [if_pos h2, hinv]; exact hbound b
      · rw [if_neg h2]; exact ih _ _ hinv hbound b

lemma selectDiverse_length (top_k : Nat) (docs : List RDoc) :
    ∀ (counts : String → Nat) (selected : List RDoc),
      selected.length < top_k →
      (selectDiverse top_k docs counts selected).length ≤ top_k := by
  induction docs with
  | nil => intro counts selected h; rw [selectDiverse_nil]; omega
  | cons d rest ih =>
    intro counts selected h
    rw [selectDiverse_cons]
    by_cases h1 : counts (bookOf d) < 2
    · rw [if_pos h1]
      by_cases h2 : (selected ++ [d]).length ≥ top_k
      · rw [if_pos h2]
        simp only [List.length_append, List.length_cons, List.length_nil]
        omega
      · rw [if_neg h2]
        exact ih _ _ (by omega)
    · rw [if_neg h1]
      by_cases h2 : selected.length ≥ top_k
      · rw [if_pos h2]; omega
      · rw [if_neg h2]; exact ih _ _ h

lemma mem_insertDesc (d : RDoc) (l : List RDoc) (x : RDoc) :
    x ∈ insertDesc d l ↔ x = d ∨ x ∈ l := by
  induction l with
  | nil => simp [insertDesc]
  | cons e t ih =>
    unfold insertDesc
    split_ifs with h
    all_goals simp only [List.mem_cons, ih]
    all_goals tauto

lemma insertDesc_pairwise (d : RDoc) (l : List RDoc)
    (h : l.Pairwise fun a b => b.score ≤ a.score) :
    (insertDesc d l).Pairwise fun a b => b.score ≤ a.score := by
  induction l with
  | nil => simp [insertDesc]
  | cons e t ih =>
    unfold insertDesc
    rcases List.pairwise_cons.mp h with ⟨he, ht⟩
    split_ifs with hgt
    · refine List.pairwise_cons.mpr ⟨?_, ih ht⟩
      intro x hx
      rcases (mem_insertDesc d t x).mp hx with rfl | hxt
      · exact le_of_lt hgt
      · exact he x hxt
    · refine List.pairwise_cons.mpr ⟨?_, h⟩
      intro x hx
      rcases List.mem_cons.mp hx with rfl | hxt
      · exact le_of_not_lt hgt
      · exact le_trans (he x hxt) (le_of_not_lt hgt)

lemma sortScoreDesc_pairwise (l : List RDoc) :
    (sortScoreDesc l).Pairwise fun a b => b.score ≤ a.score := by
  induction l with
  | nil => simp [sortScoreDesc]
  | cons x xs ih => exact insertDesc_pairwise x _ ih

lemma retrieve_sorted_docs_pairwise (C : Collab) (query : String)
    (intent : QueryIntent) (book_filter : String) (top_k : Nat)
    (history : List Turn) :
    (retrieve_sorted_docs C query intent book_filter top_k history).Pairwise
      fun a b => b.score ≤ a.score := by
  unfold retrieve_sorted_docs
  cases rank_request C query intent book_filter top_k history with
  | none => simp
  | some req =>
    simp only
    split_ifs <;> first | exact sortScoreDesc_pairwise _ | simp

lemma dedupKeepFirst_eq_nil {l : List String}
    (h : dedupKeepFirst l = []) : l = [] := by
  cases l with
  | nil => rfl
  | cons x xs => simp [dedupKeepFirst, dedupKeepFirst.go] at h

set_option maxHeartbeats 1000000 in
/-- Claim C6: for every `CROSS_BOOK` or `COMPARISON` retrieval whose
result cap `K` is at least twice the number of books with results, the
source list returned by `retrieve_context` contains at most 2 passages
from any single book, has at most `K` entries, and is in descending
score order. -/
theorem C6_cross_book_diversity (C : Collab) (query : String)
    (intent : QueryIntent) (book_filter : String) (top_k : Nat)
    (history : List Turn)
    (hintent : intent = QueryIntent.CROSS_BOOK ∨ intent = QueryIntent.COMPARISON)
    (hK : 2 * (books_with_results C query intent book_filter top_k history).length
      ≤ top_k) :
    (∀ b, countSourceBook b
      (retrieve_context C query intent book_filter top_k history).sources ≤ 2) ∧
    (retrieve_context C query intent book_filter top_k history).sources.length
      ≤ top_k ∧
    ((retrieve_context C query intent book_filter top_k history).sources.map
      fun s => s.score).Pairwise (fun a b : ℚ => b ≤ a) := by
  have htop : retrieve_top_docs C query intent book_filter top_k history =
      selectDiverse top_k
        (retrieve_sorted_docs C query intent book_filter top_k history)
        (fun _ => 0) [] := by
    unfold retrieve_top_docs
    rcases hintent with h | h <;> subst h <;> simp
  have hsrc : (retrieve_context C query intent book_filter top_k history).sources =
      (retrieve_top_docs C query intent book_filter top_k history).map
        fun d => SourceInfo.mk (format_source d.meta) d.score d.meta := rfl
  refine ⟨?_, ?_, ?_⟩
  · intro b
    rw [hsrc, countSourceBook, List.countP_map, htop]
    exact selectDiverse_count top_k _ (fun _ => 0) []
      (fun b' => rfl) (fun b' => Nat.zero_le 2) b
  · rw [hsrc, List.length_map, htop]
    by_cases htk : top_k = 0
    · subst htk
      have hb0 : (books_with_results C query intent book_filter 0 history).length = 0 := by
        omega
      have hnil : retrieve_sorted_docs C query intent book_filter 0 history = [] := by
        have := dedupKeepFirst_eq_nil (List.length_eq_zero.mp hb0)
        exact List.map_eq_nil_iff.mp this
      rw [hnil, selectDiverse_nil]
      simp
    · exact selectDiverse_length top_k _ (fun _ => 0) []
        (by simpa using Nat.pos_of_ne_zero htk)
  · rw [hsrc, htop]
    obtain ⟨t, ht, hsub⟩ := selectDiverse_exists_sublist top_k
      (retrieve_sorted_docs C query intent book_filter top_k history) (fun _ => 0) []
    rw [ht, List.nil_append]
    have hpw := (retrieve_sorted_docs_pairwise C query intent book_filter
      top_k history).sublist hsub
    rw [List.map_map, List.pairwise_map]
    exact hpw

/-- Concrete collaborators for the C6 witness: each book yields one
passage, the reranker scores everything 1, digests are the identity. -/
def C6demo_collab : Collab :=
  Collab.mk
    (fun _ _ f =>
      match f with
      | SFilter.byBook b => [(Doc.mk b (Meta.mk (some b) none none none none none), 1)]
      | _ => [])
    (fun _ _ => [])
    (fun req => req.passages.map fun p => RDoc.mk p.id p.text p.meta 1)
    (fun s => s)

/-- Witness for C6: a `CROSS_BOOK` retrieval over the 5 configured books
with `K = 10 = 2 × 5`. -/
theorem C6_cross_book_diversity_witness :
    countSourceBook "LLM Engineers Handbook"
      (retrieve_context C6demo_collab "compare books" QueryIntent.CROSS_BOOK
        "" 10 []).sources ≤ 2 ∧
    (retrieve_context C6demo_collab "compare books" QueryIntent.CROSS_BOOK
      "" 10 []).sources.length ≤ 10 := by
  have H := C6_cross_book_diversity C6demo_collab "compare books"
    QueryIntent.CROSS_BOOK "" 10 [] (Or.inl rfl) (by decide)
  exact ⟨H.1 "LLM Engineers Handbook", H.2.1⟩

/-! ### Claim C7 -/

lemma eraseP_fresh {k : String} : ∀ (c : Cache),
    (∀ kv ∈ c, kv.1 ≠ k) → (c.eraseP fun kv => kv.1 = k) = c := by
  intro c
  induction c with
  | nil => intro _; rfl
  | cons x t ih =>
    intro h
    rw [List.eraseP_cons_of_neg, ih fun kv hkv => h kv (List.mem_cons_of_mem x hkv)]
    simp [h x (List.mem_cons_self x t)]

lemma eraseP_key {k : String} : ∀ (c₁ : Cache) (e : CacheEntry) (c₂ : Cache),
    (∀ kv ∈ c₁, kv.1 ≠ k) →
    ((c₁ ++ (k, e) :: c₂).eraseP fun kv => kv.1 = k) = c₁ ++ c₂ := by
  intro c₁
  induction c₁ with
  | nil => intro e c₂ _; simp [List.eraseP_cons_of_pos]
  | cons x t ih =>
    intro e c₂ h
    rw [List.cons_append, List.eraseP_cons_of_neg, ih e c₂
      fun kv hkv => h kv (List.mem_cons_of_mem x hkv), List.cons_append]
    simp [h x (List.mem_cons_self x t)]

lemma find?_key {k : String} : ∀ (c₁ : Cache) (e : CacheEntry) (c₂ : Cache),
    (∀ kv ∈ c₁, kv.1 ≠ k) →
    ((c₁ ++ (k, e) :: c₂).find? fun kv => kv.1 = k) = some (k, e) := by
  intro c₁
  induction c₁ with
  | nil => intro e c₂ _; simp
  | cons x t ih =>
    intro e c₂ h
    rw [List.cons_append, List.find?_cons_of_neg, ih e c₂
      fun kv hkv => h kv (List.mem_cons_of_mem x hkv)]
    simp [h x (List.mem_cons_self x t)]

lemma evict_lru_of_le (max_size : Nat) : ∀ (c : Cache),
    c.length ≤ max_size → evict_lru max_size c = c := by
  intro c h
  cases c with
  | nil => rfl
  | cons kv t =>
    unfold evict_lru
    rw [if_neg (by omega)]

lemma evict_lru_succ (max_size : Nat) : ∀ (c : Cache),
    c.length = max_size + 1 → evict_lru max_size c = c.tail := by
  intro c h
  cases c with
  | nil => simp at h
  | cons kv t =>
    unfold evict_lru
    rw [if_pos (by simp at h ⊢; omega)]
    exact evict_lru_of_le max_size t (by simp at h; omega)

lemma qc_get_hit (keyFn : String → String → String) (c₁ c₂ : Cache)
    (e : CacheEntry) (q bf : String) (now : ℤ)
    (hfresh : ∀ kv ∈ c₁, kv.1 ≠ keyFn q bf)
    (httl : now - e.timestamp < CACHE_TTL_HOURS) :
    qc_get keyFn (c₁ ++ (keyFn q bf, e) :: c₂) q bf now =
      (some e, (c₁ ++ c₂) ++ [(keyFn q bf, e)]) := by
  unfold qc_get
  rw [find?_key c₁ e c₂ hfresh]
  simp only [if_pos httl, eraseP_key c₁ e c₂ hfresh]

set_option maxHeartbeats 1000000 in
/-- Claim C7 (counterexample): with capacity 1 the cache at capacity
holds a single entry; `get` marks it most-recently-used, yet the next
`set` of a distinct key still evicts exactly that entry, so "accessing an
entry via get protects it from the next eviction" fails. -/
theorem C7_capacity_one_counterexample :
    (qc_get (fun q bf => q ++ "|" ++ bf) [("a|", CacheEntry.mk "a" "" "r" [] 0)]
      "a" "" 0).1 = some (CacheEntry.mk "a" "" "r" [] 0) ∧
    ((qc_set (fun q bf => q ++ "|" ++ bf)
        (qc_get (fun q bf => q ++ "|" ++ bf) [("a|", CacheEntry.mk "a" "" "r" [] 0)]
          "a" "" 0).2
        "b" "" "r2" [] 0 1).find? fun kv => kv.1 = "a|") = none := by
  constructor <;> decide

/-- Claim C7 (amended): (a) for a cache at capacity holding at least one
entry, a `set` with a fresh key evicts exactly the least-recently-used
(front) entry and appends the new one; (b) a `get` hit on an unexpired
entry moves it to the most-recently-used (back) position; (c) when the
cache at capacity holds at least two entries, the entry refreshed by
`get` survives the next capacity-exceeding `set`, which instead evicts
the least-recently-used of the remaining entries (with capacity 1 the
refreshed entry is itself evicted — see the counterexample). -/
theorem C7_lru_eviction_and_protection (keyFn : String → String → String) :
    (∀ (c : Cache) (q bf resp : String) (srcs : List String) (now : ℤ)
        (max_size : Nat),
      c.length = max_size → c ≠ [] →
      (∀ kv ∈ c, kv.1 ≠ keyFn q bf) →
      qc_set keyFn c q bf resp srcs now max_size =
        c.tail ++ [(keyFn q bf, CacheEntry.mk q bf resp srcs now)]) ∧
    (∀ (c₁ c₂ : Cache) (e : CacheEntry) (q bf : String) (now : ℤ),
      (∀ kv ∈ c₁, kv.1 ≠ keyFn q bf) →
      now - e.timestamp < CACHE_TTL_HOURS →
      qc_get keyFn (c₁ ++ (keyFn q bf, e) :: c₂) q bf now =
        (some e, (c₁ ++ c₂) ++ [(keyFn q bf, e)])) ∧
    (∀ (c₁ c₂ : Cache) (e : CacheEntry) (q bf : String) (now : ℤ)
        (q' bf' resp' : String) (srcs' : List String) (now' : ℤ) (max_size : Nat),
      (∀ kv ∈ c₁, kv.1 ≠ keyFn q bf) →
      now - e.timestamp < CACHE_TTL_HOURS →
      (c₁ ++ (keyFn q bf, e) :: c₂).length = max_size →
      c₁ ++ c₂ ≠ [] →
      (∀ kv ∈ (c₁ ++ c₂) ++ [(keyFn q bf, e)], kv.1 ≠ keyFn q' bf') →
      qc_set keyFn (qc_get keyFn (c₁ ++ (keyFn q bf, e) :: c₂) q bf now).2
          q' bf' resp' srcs' now' max_size =
        (c₁ ++ c₂).tail ++
          [(keyFn q bf, e), (keyFn q' bf', CacheEntry.mk q' bf' resp' srcs' now')] ∧
      (keyFn q bf, e) ∈
        qc_set keyFn (qc_get keyFn (c₁ ++ (keyFn q bf, e) :: c₂) q bf now).2
          q' bf' resp' srcs' now' max_size) := by
  refine ⟨?_, ?_, ?_⟩
  · intro c q bf resp srcs now max_size hlen hne hfresh
    unfold qc_set
    rw [eraseP_fresh c hfresh,
      evict_lru_succ max_size _ (by simp [hlen])]
    cases c with
    | nil => exact absurd rfl hne
    | cons kv t => rfl
  · intro c₁ c₂ e q bf now hfresh httl
    exact qc_get_hit keyFn c₁ c₂ e q bf now hfresh httl
  · intro c₁ c₂ e q bf now q' bf' resp' srcs' now' max_size hfresh httl hlen hne hfresh'
    rw [qc_get_hit keyFn c₁ c₂ e q bf now hfresh httl]
    have hset : qc_set keyFn ((c₁ ++ c₂) ++ [(keyFn q bf, e)]) q' bf' resp' srcs'
        now' max_size =
        (c₁ ++ c₂).tail ++
          [(keyFn q bf, e), (keyFn q' bf', CacheEntry.mk q' bf' resp' srcs' now')] := by
      unfold qc_set
      rw [eraseP_fresh _ hfresh',
        evict_lru_succ max_size _ (by simp at hlen ⊢; omega)]
      cases hc : c₁ ++ c₂ with
      | nil => exact absurd hc hne
      | cons kv t => simp
    refine ⟨hset, ?_⟩
    rw [hset]
    exact List.mem_append_right _ (List.mem_cons_self _ _)

/-- Witness for C7 (amended) at a concrete two-entry cache with
capacity 2. -/
theorem C7_lru_eviction_and_protection_witness :
    qc_set (fun q bf => q ++ "|" ++ bf)
      [("q1|", CacheEntry.mk "q1" "" "r1" [] 0), ("q2|", CacheEntry.mk "q2" "" "r2" [] 0)]
      "q3" "" "r3" [] 0 2 =
      [("q2|", CacheEntry.mk "q2" "" "r2" [] 0),
       ("q3|", CacheEntry.mk "q3" "" "r3" [] 0)] ∧
    qc_get (fun q bf => q ++ "|" ++ bf)
      [("q1|", CacheEntry.mk "q1" "" "r1" [] 0), ("q2|", CacheEntry.mk "q2" "" "r2" [] 0)]
      "q1" "" 0 =
      (some (CacheEntry.mk "q1" "" "r1" [] 0),
       [("q2|", CacheEntry.mk "q2" "" "r2" [] 0), ("q1|", CacheEntry.mk "q1" "" "r1" [] 0)]) := by
  have H := C7_lru_eviction_and_protection fun q bf => q ++ "|" ++ bf
  constructor
  · have ha := H.1
      [("q1|", CacheEntry.mk "q1" "" "r1" [] 0), ("q2|", CacheEntry.mk "q2" "" "r2" [] 0)]
      "q3" "" "r3" [] 0 2 rfl (by decide) (by decide)
    rw [ha]
    decide
  · have hb := H.2.1 [] [("q2|", CacheEntry.mk "q2" "" "r2" [] 0)]
      (CacheEntry.mk "q1" "" "r1" [] 0) "q1" "" 0 (by simp) (by decide)
    exact hb

/-! ### Claim C1 -/

def C1demo_meta : Meta := Meta.mk (some "Machine Learning Basics") none none none none none

def C1demo_collab : Collab :=
  Collab.mk (fun _ _ _ => [(Doc.mk "some doc text" C1demo_meta, 1)])
    (fun _ _ => []) (fun _ => []) (fun s => s)

def C1demo_history : List Turn :=
  [Turn.mk "What is a pipeline" "A pipeline is a system" ""]

/-- Claim C1 (counterexample): the reranker is called with the expanded
search string, not the caller's query — for the vague query "tell me more
about it" after a turn about pipelines, the issued `RerankRequest` query
differs from the original query. -/
theorem C1_expanded_query_counterexample :
    (rank_request C1demo_collab "tell me more about it" QueryIntent.GENERAL ""
      5 C1demo_history).map RerankRequest.query ≠
      some "tell me more about it" := by
  decide

/-- Claim C1 (amended): whenever `retrieve_context` reaches the reranker,
the issued request carries the expanded search string
(`expand_vague_query`, which may differ from the caller's query) together
with the merged unique passages. -/
theorem C1_reranker_gets_expanded_query (C : Collab) (query : String)
    (intent : QueryIntent) (book_filter : String) (top_k : Nat)
    (history : List Turn) (req : RerankRequest)
    (h : rank_request C query intent book_filter top_k history = some req) :
    req.query = expand_vague_query query history (some intent) ∧
    req.passages = bm25_merge
      (deduplicate C.md5 (gathered_results C query intent book_filter top_k
        (expand_vague_query query history (some intent))))
      (C.bm25 (expand_vague_query query history (some intent)) (top_k * 2)) := by
  simp only [rank_request] at h
  split_ifs at h
  injection h with h'
  subst h'
  exact ⟨rfl, rfl⟩

/-- Witness for C1 (amended): the concrete request issued for "tell me
more about it" carries the expanded query. -/
theorem C1_reranker_gets_expanded_query_witness :
    (RerankRequest.mk "tell me more about it pipeline system"
      [Passage.mk 0 "some doc text" C1demo_meta 1]).query =
      expand_vague_query "tell me more about it" C1demo_history
        (some QueryIntent.GENERAL) :=
  (C1_reranker_gets_expanded_query C1demo_collab "tell me more about it"
    QueryIntent.GENERAL "" 5 C1demo_history
    (RerankRequest.mk "tell me more about it pipeline system"
      [Passage.mk 0 "some doc text" C1demo_meta 1]) (by decide)).1

end DocRag
